import Mathlib

/-!
Verification development for the invoice-parser repository.

The code under `src/supabase/functions/parse-invoice/index.ts` (the main
parse-invoice edge function) and `src/unnamed/part_000` (the alternate
`fileUrl`-based text-retrieval handler) is shallowly embedded below.
JavaScript runtime values flowing out of `JSON.parse` and into the
normalizer are modelled by the inductive type `JsVal`; JavaScript strings
are modelled as Lean `String` / `List Char` (one `Char` per UTF-16 unit of
the realistic inputs).  Platform primitives used by the source
(`JSON.parse`, `Number.parseInt`, `String.prototype.match` with the
concrete regex of line 211, property access and `||` defaulting) are given
executable models faithful to ECMAScript semantics on the value universe
of `JsVal` (numbers are modelled as integers, plus a constructor carrying
the decimal representation of a non-integral literal; exponent-form JSON
number literals are outside the modelled grammar).
-/

namespace InvoiceParser

/-- Model of a JavaScript runtime value as it can appear in the data
flowing through the normalizer.  `numNI` carries the decimal string of a
non-integral numeric literal (its JavaScript `toString` form). -/
inductive JsVal where
  | undefined
  | null
  | bool (b : Bool)
  | num (n : Int)
  | numNI (repr10 : String)
  | str (s : String)
  | arr (xs : List JsVal)
  | obj (fields : List (String × JsVal))

/-- JavaScript truthiness (`Boolean(v)`) on the modelled values.  A
non-integral number is never zero, hence always truthy. -/
def truthy : JsVal → Bool
  | .undefined => false
  | .null => false
  | .bool b => b
  | .num n => n != 0
  | .numNI _ => true
  | .str s => s != ""
  | .arr _ => true
  | .obj _ => true

/-- Whether the value is `undefined`. -/
def isUndefined : JsVal → Bool
  | .undefined => true
  | _ => false

/-- Whether the value is `null`. -/
def isNull : JsVal → Bool
  | .null => true
  | _ => false

/-- Whether property access on the value throws a `TypeError`
(JavaScript throws exactly for `null` and `undefined`). -/
def isNullish : JsVal → Bool
  | .undefined => true
  | .null => true
  | _ => false

/-- JavaScript `a || b` on values: `b` when `a` is falsy, else `a`. -/
def jsOr (a b : JsVal) : JsVal :=
  if truthy a then a else b

/-- Field lookup in an object's field list; the last occurrence of a key
wins, matching the object produced by `JSON.parse` on duplicate keys. -/
def lookupField (fs : List (String × JsVal)) (k : String) : JsVal :=
  match fs.reverse.find? (fun p => p.1 == k) with
  | some p => p.2
  | none => .undefined

/-- Total model of `item.k` for a non-nullish `item`: the field's value
on an object with that key, `undefined` otherwise (primitives and arrays
have none of the keys the normalizer reads). -/
def propOrUndefined (item : JsVal) (k : String) : JsVal :=
  match item with
  | .obj fs => lookupField fs k
  | _ => .undefined

mutual

/-- JavaScript `String(v)` on the modelled values (`Array.prototype.toString`
joins element strings with commas, rendering `null`/`undefined` elements
as empty). -/
def jsToString : JsVal → String
  | .undefined => "undefined"
  | .null => "null"
  | .bool b => if b then "true" else "false"
  | .num n => toString n
  | .numNI r => r
  | .str s => s
  | .arr xs => joinComma xs
  | .obj _ => "[object Object]"

/-- Comma-join used by `Array.prototype.toString`. -/
def joinComma : List JsVal → String
  | [] => ""
  | [x] => if isNullish x then "" else jsToString x
  | x :: y :: xs =>
      (if isNullish x then "" else jsToString x) ++ "," ++ joinComma (y :: xs)

end

/-- Numeric value of a run of decimal digit characters. -/
def digitsToNat (ds : List Char) : Nat :=
  ds.foldl (fun acc c => acc * 10 + (c.toNat - '0'.toNat)) 0

/-- Model of `Number.parseInt(s, 10)`: skip leading whitespace, read an
optional sign and then the longest run of decimal digits; `none` models
`NaN` (no digits found). -/
def parseIntStr (s : String) : Option Int :=
  let cs := s.data.dropWhile (fun c => c.isWhitespace)
  let signed : Bool × List Char :=
    match cs with
    | '-' :: r => (true, r)
    | '+' :: r => (false, r)
    | _ => (false, cs)
  let ds := signed.2.takeWhile (fun c => c.isDigit)
  if ds.isEmpty then none
  else
    let n : Int := (digitsToNat ds : Int)
    some (if signed.1 then -n else n)

/-- Model of line 221, `Number.parseInt(item.quantity, 10) || 0`:
`parseInt` coerces its argument with `String(...)`; `|| 0` maps `NaN`
(and signed zero) to `0`. -/
def normQuantity (v : JsVal) : Int :=
  match parseIntStr (jsToString v) with
  | none => 0
  | some n => if n = 0 then 0 else n

/-! JSON parsing (model of `JSON.parse` on line 213).  A fuel-indexed
recursive-descent parser over the character list; the fuel passed at the
top level always suffices because every recursive call follows the
consumption of at least one input character. -/

/-- JSON insignificant whitespace. -/
def jsonWs (c : Char) : Bool :=
  c = ' ' ∨ c = '\t' ∨ c = '\n' ∨ c = '\r'

/-- Drop leading JSON whitespace. -/
def skipWs (cs : List Char) : List Char :=
  cs.dropWhile jsonWs

/-- Hexadecimal digit value, for string `\u` escapes. -/
def hexVal (c : Char) : Option Nat :=
  if '0' ≤ c ∧ c ≤ '9' then some (c.toNat - '0'.toNat)
  else if 'a' ≤ c ∧ c ≤ 'f' then some (c.toNat - 'a'.toNat + 10)
  else if 'A' ≤ c ∧ c ≤ 'F' then some (c.toNat - 'A'.toNat + 10)
  else none

/-- Parse the body of a JSON string literal (the opening quote already
consumed), returning the decoded string and the input after the closing
quote. -/
def parseStringBody : List Char → List Char → Except Unit (String × List Char)
  | [], _ => .error ()
  | '"' :: rest, acc => .ok (⟨acc.reverse⟩, rest)
  | '\\' :: esc, acc =>
    match esc with
    | '"' :: r => parseStringBody r ('"' :: acc)
    | '\\' :: r => parseStringBody r ('\\' :: acc)
    | '/' :: r => parseStringBody r ('/' :: acc)
    | 'b' :: r => parseStringBody r ('\x08' :: acc)
    | 'f' :: r => parseStringBody r ('\x0C' :: acc)
    | 'n' :: r => parseStringBody r ('\n' :: acc)
    | 'r' :: r => parseStringBody r ('\r' :: acc)
    | 't' :: r => parseStringBody r ('\t' :: acc)
    | 'u' :: h1 :: h2 :: h3 :: h4 :: r =>
      match hexVal h1, hexVal h2, hexVal h3, hexVal h4 with
      | some a, some b, some c, some d =>
          parseStringBody r (Char.ofNat (((a * 16 + b) * 16 + c) * 16 + d) :: acc)
      | _, _, _, _ => .error ()
    | _ => .error ()
  | c :: rest, acc => parseStringBody rest (c :: acc)
termination_by cs _ => cs.length

/-- Strip trailing zeros from a fraction digit run (JavaScript prints the
shortest decimal form of the literal). -/
def trimZeros (ds : List Char) : List Char :=
  (ds.reverse.dropWhile (fun c => c = '0')).reverse

/-- Build the `JsVal` of a JSON number literal with integer part `ip`,
sign `neg` and fraction digits `frac`; a fraction of zeros collapses to
the integer value. -/
def mkNumVal (neg : Bool) (ip : Nat) (frac : List Char) : JsVal :=
  if (trimZeros frac).isEmpty then
    .num (if neg then -(ip : Int) else (ip : Int))
  else
    .numNI ((if neg then "-" else "") ++ toString ip ++ "." ++ ⟨trimZeros frac⟩)

/-- Parse a JSON number literal (grammar: optional minus, `0` or a
nonzero-led digit run, optional fraction; exponent forms are outside the
modelled grammar). -/
def parseNumber (cs : List Char) : Except Unit (JsVal × List Char) :=
  let signed : Bool × List Char :=
    match cs with
    | '-' :: r => (true, r)
    | _ => (false, cs)
  match signed.2 with
  | [] => .error ()
  | c :: rest =>
    if c = '0' then
      parseAfterInt signed.1 0 rest
    else if c.isDigit then
      let ds := rest.takeWhile (fun d => d.isDigit)
      parseAfterInt signed.1 (digitsToNat (c :: ds)) (rest.dropWhile (fun d => d.isDigit))
    else .error ()
where
  /-- Continue after the integer part: optional `.` and fraction digits. -/
  parseAfterInt (neg : Bool) (ip : Nat) (rest : List Char) :
      Except Unit (JsVal × List Char) :=
    match rest with
    | '.' :: r =>
      let ds := r.takeWhile (fun d => d.isDigit)
      if ds.isEmpty then .error ()
      else .ok (mkNumVal neg ip ds, r.dropWhile (fun d => d.isDigit))
    | _ => .ok (.num (if neg then -(ip : Int) else (ip : Int)), rest)

mutual

/-- Parse one JSON value from the input (fuel-indexed). -/
def parseValue : Nat → List Char → Except Unit (JsVal × List Char)
  | 0, _ => .error ()
  | fuel + 1, cs =>
    match skipWs cs with
    | 'n' :: 'u' :: 'l' :: 'l' :: rest => .ok (.null, rest)
    | 't' :: 'r' :: 'u' :: 'e' :: rest => .ok (.bool true, rest)
    | 'f' :: 'a' :: 'l' :: 's' :: 'e' :: rest => .ok (.bool false, rest)
    | '"' :: rest =>
      match parseStringBody rest [] with
      | .ok (s, rest2) => .ok (.str s, rest2)
      | .error e => .error e
    | '[' :: rest =>
      (match skipWs rest with
       | ']' :: rest2 => .ok (.arr [], rest2)
       | _ =>
         match parseElemsLoop fuel rest with
         | .ok (xs, rest2) => .ok (.arr xs, rest2)
         | .error e => .error e)
    | '{' :: rest =>
      (match skipWs rest with
       | '}' :: rest2 => .ok (.obj [], rest2)
       | _ =>
         match parseFieldsLoop fuel rest with
         | .ok (fs, rest2) => .ok (.obj fs, rest2)
         | .error e => .error e)
    | other => parseNumber other

/-- Parse a nonempty comma-separated run of array elements followed by
`]` (fuel-indexed). -/
def parseElemsLoop : Nat → List Char → Except Unit (List JsVal × List Char)
  | 0, _ => .error ()
  | fuel + 1, cs =>
    match parseValue fuel cs with
    | .error e => .error e
    | .ok (v, rest) =>
      match skipWs rest with
      | ',' :: r =>
        (match parseElemsLoop fuel r with
         | .ok (xs, rest2) => .ok (v :: xs, rest2)
         | .error e => .error e)
      | ']' :: r => .ok ([v], r)
      | _ => .error ()

/-- Parse a nonempty comma-separated run of object members followed by
`}` (fuel-indexed). -/
def parseFieldsLoop : Nat → List Char → Except Unit (List (String × JsVal) × List Char)
  | 0, _ => .error ()
  | fuel + 1, cs =>
    match skipWs cs with
    | '"' :: rest =>
      (match parseStringBody rest [] with
       | .error e => .error e
       | .ok (k, rest2) =>
         match skipWs rest2 with
         | ':' :: rest3 =>
           (match parseValue fuel rest3 with
            | .error e => .error e
            | .ok (v, rest4) =>
              match skipWs rest4 with
              | ',' :: r =>
                (match parseFieldsLoop fuel r with
                 | .ok (fs, rest5) => .ok ((k, v) :: fs, rest5)
                 | .error e => .error e)
              | '}' :: r => .ok ([(k, v)], r)
              | _ => .error ())
         | _ => .error ())
    | _ => .error ()

end

/-- Model of `JSON.parse` applied to the whole input: one value, then
nothing but whitespace. -/
def parseJson (cs : List Char) : Except Unit JsVal :=
  match parseValue (cs.length + 1) cs with
  | .error e => .error e
  | .ok (v, rest) => if (skipWs rest).isEmpty then .ok v else .error ()

/-! Locating the array substring: model of line 211,
`rawContent.match(/\[[\s\S]*\]/)`. -/

/-- Split the list at the first occurrence of `c`: the part before it
(free of `c`) and the remainder starting with `c`; `none` when `c` does
not occur. -/
def breakAtFirst (c : Char) : List Char → Option (List Char × List Char)
  | [] => none
  | x :: xs =>
    if x = c then some ([], x :: xs)
    else (breakAtFirst c xs).map (fun p => (x :: p.1, p.2))

/-- Model of the greedy regex match of line 211: the leftmost-longest
match of `/\[[\s\S]*\]/` runs from the first `[` that precedes the last
`]` through that last `]`; `none` when no `[` is followed by a `]`. -/
def extractArraySubstring (s : String) : Option String :=
  match breakAtFirst ']' s.data.reverse with
  | none => none
  | some (_, closeRev) =>
    match breakAtFirst '[' closeRev.reverse with
    | none => none
    | some (_, t) => some ⟨t⟩

/-- Modelled from the spec: "the first substring that forms a balanced
top-level array (`[...]`)" — scan to the first `[` and return through its
matching `]` by bracket counting.  This definition follows the spec's
words and exists only to be compared with `extractArraySubstring`, the
model of the source's greedy regex. -/
def firstBalancedArray (s : String) : Option String :=
  match breakAtFirst '[' s.data with
  | none => none
  | some (_, t) => (balancedTake 0 [] t).map (fun u => ⟨u⟩)
where
  /-- Take characters until the bracket depth returns to zero. -/
  balancedTake (depth : Nat) (acc : List Char) : List Char → Option (List Char)
    | [] => none
    | c :: rest =>
      if c = '[' then balancedTake (depth + 1) (c :: acc) rest
      else if c = ']' then
        if depth = 1 then some (c :: acc).reverse
        else balancedTake (depth - 1) (c :: acc) rest
      else balancedTake depth (c :: acc) rest

/-- Model of `file.name.split(".").pop()` (line 92): the segment after
the last dot, or the whole name when it has no dot. -/
def fileExtOf (name : String) : String :=
  (name.splitOn ".").getLastD ""

/-- Model of `fileName.replace(/\.[^/.]+$/, "")` (lines 217 and 239):
drop a final extension consisting of a dot followed by one or more
characters none of which is a slash or a dot. -/
def stripExt (s : String) : String :=
  match breakAtFirst '.' s.data.reverse with
  | none => s
  | some (extRev, rest) =>
    if extRev.isEmpty ∨ extRev.contains '/' then s
    else ⟨(rest.drop 1).reverse⟩

/-! The normalizer (lines 206-251). -/

/-- Per-request context available to the normalizer: the caller's hints
(lines 79-80 give empty strings when absent), the storage file name and
public URL, and the processing timestamps. -/
structure Ctx where
  vendorHint : String
  customerHint : String
  fileName : String
  publicUrl : String
  timestamp : Nat
  nowIso : String

/-- The canonical output record (interface `OrderLineItem`, lines 11-23).
Fields whose JavaScript value is built by `||` defaulting from the
untrusted item keep the modelled value type `JsVal`; fields the code
always assigns from typed expressions carry their Lean type. -/
structure OrderLineItem where
  id : String
  source_invoice_id : String
  vendor_name : JsVal
  customer_name : JsVal
  style_number : JsVal
  quantity : Int
  eta_date : JsVal
  created_at : String
  source_file_url : String
  notes : JsVal
  needs_review : Bool

/-- The record built for one parsed element (lines 215-231), given that
property access on the element does not throw. -/
def mapItemCore (ctx : Ctx) (index : Nat) (item : JsVal) : OrderLineItem :=
  let v := propOrUndefined item "vendor_name"
  let c := propOrUndefined item "customer_name"
  let sn := propOrUndefined item "style_number"
  { id := toString ctx.timestamp ++ "-" ++ toString index
    source_invoice_id := stripExt ctx.fileName
    vendor_name := jsOr v (jsOr (.str ctx.vendorHint) (.str ""))
    customer_name := jsOr c (jsOr (.str ctx.customerHint) (.str ""))
    style_number := jsOr sn (.str "")
    quantity := normQuantity (propOrUndefined item "quantity")
    eta_date := jsOr (propOrUndefined item "eta_date") .null
    created_at := ctx.nowIso
    source_file_url := ctx.publicUrl
    notes := jsOr (propOrUndefined item "notes") (.str "")
    needs_review :=
      truthy (propOrUndefined item "needs_review") ||
      !(truthy v) || !(truthy c) || !(truthy sn) }

/-- Mapping one element of the parsed array: property access on `null`
or `undefined` throws a `TypeError` (propagated to the `catch` of line
234), otherwise the record of `mapItemCore` is produced. -/
def mapItem (ctx : Ctx) (index : Nat) (item : JsVal) : Except Unit OrderLineItem :=
  if isNullish item then .error () else .ok (mapItemCore ctx index item)

/-- The `parsedData.map(...)` call (line 215): elements are mapped in
order from the given start index; a throw from any element aborts the
whole map. -/
def mapItemsAux (ctx : Ctx) : Nat → List JsVal → Except Unit (List OrderLineItem)
  | _, [] => .ok []
  | i, x :: xs =>
    match mapItem ctx i x with
    | .error e => .error e
    | .ok r =>
      match mapItemsAux ctx (i + 1) xs with
      | .ok rs => .ok (r :: rs)
      | .error e => .error e

/-- The sentinel record of the `catch` branch (lines 236-250). -/
def fallbackRecord (ctx : Ctx) : OrderLineItem :=
  { id := toString ctx.timestamp ++ "-0"
    source_invoice_id := stripExt ctx.fileName
    vendor_name := jsOr (.str ctx.vendorHint) (.str "")
    customer_name := jsOr (.str ctx.customerHint) (.str "")
    style_number := .str ""
    quantity := 0
    eta_date := .null
    created_at := ctx.nowIso
    source_file_url := ctx.publicUrl
    notes := .str "AI extraction failed - manual review required"
    needs_review := true }

/-- The tail of the `try` block after `JSON.parse` (lines 213-231) plus
the `catch` (lines 234-251): a parse exception, a non-array root (whose
`.map` would throw), or a `TypeError` thrown while mapping all land in
the catch and produce the single fallback record. -/
def normalizeParsed (ctx : Ctx) (res : Except Unit JsVal) : List OrderLineItem :=
  match res with
  | .error _ => [fallbackRecord ctx]
  | .ok (.arr xs) =>
    match mapItemsAux ctx 0 xs with
    | .ok recs => recs
    | .error _ => [fallbackRecord ctx]
  | .ok _ => [fallbackRecord ctx]

/-- The normalizer (lines 206-251): take the greedy regex match (or the
literal text `"[]"` when there is none), `JSON.parse` it, and map the
elements with fallback on any exception. -/
def normalize (rawContent : String) (ctx : Ctx) : List OrderLineItem :=
  normalizeParsed ctx (parseJson ((extractArraySubstring rawContent).getD "[]").data)

/-! PDF text extraction (lines 127-140).  Page texts are modelled as
character lists; a page's extracted text is the space-join the source
computes at lines 131-133, taken here as given input. -/

/-- The fixed character budget of line 27. -/
def MAX_TEXT_CHARS : Nat := 15000

/-- The page-boundary marker prepended to page `i` (line 134). -/
def pageMarker (i : Nat) : List Char :=
  ("\n\n--- Page " ++ toString i ++ " ---\n").data

/-- The accumulation loop of lines 128-137: append marker and page text
for each page in order, and break as soon as the accumulated length
exceeds the budget. -/
def extractTextLoop : List Char → Nat → List (List Char) → List Char
  | acc, _, [] => acc
  | acc, i, p :: ps =>
    let acc2 := acc ++ pageMarker i ++ p
    if MAX_TEXT_CHARS < acc2.length then acc2
    else extractTextLoop acc2 (i + 1) ps

/-- Model of lines 127-140: run the accumulation loop over the pages
starting at page 1, then truncate to the budget (lines 138-140). -/
def extractFullText (pages : List (List Char)) : List Char :=
  if MAX_TEXT_CHARS < (extractTextLoop [] 1 pages).length then
    (extractTextLoop [] 1 pages).take MAX_TEXT_CHARS
  else extractTextLoop [] 1 pages

/-- Reference form of the accumulated text over a page list starting at
page number `i`: markers and page texts concatenated in order, with the
page numbers increasing by one per page. -/
def pagesJoined : Nat → List (List Char) → List Char
  | _, [] => []
  | i, p :: ps => pageMarker i ++ p ++ pagesJoined (i + 1) ps

/-! The main request handler (`Deno.serve` callback, lines 56-264),
modelled as a pure function of the inbound request and of the outcomes
of its external collaborators (environment variables, storage upload,
pdf.js, the OpenAI call). -/

/-- The uploaded file as the handler sees it. -/
structure FileInfo where
  name : String
  contentType : String
  pdfPages : List (List Char)

/-- The parsed multipart form: the `file` field (absent models a falsy
`formData.get("file")`, line 82) and the optional hint fields. -/
structure FormContents where
  file : Option FileInfo
  vendorField : Option String
  customerField : Option String

/-- An inbound request: its method and its form contents; `form = none`
models a `req.formData()` call that throws (non-multipart body), which
the outer catch of line 257 turns into a 500. -/
structure MainRequest where
  method : String
  form : Option FormContents

/-- Outcomes of the handler's external collaborators during one request:
configuration lookup (line 68), the storage upload (line 95), content
preparation (an exception from pdf.js or `arrayBuffer`, lines 111-173),
the OpenAI call (line 191) and its completion text (line 208), the
storage public URL (line 106) and the clocks (lines 93 and 223). -/
structure Env where
  apiKeyPresent : Bool
  uploadFails : Bool
  extractionThrows : Bool
  openaiFails : Bool
  completion : String
  publicUrl : String
  timestamp : Nat
  randSuffix : String
  nowIso : String

/-- Which outward calls the handler attempted. -/
structure Effects where
  uploadAttempted : Bool
  inferenceAttempted : Bool

/-- The JSON body and status of a response from the main handler. -/
structure MainResponse where
  status : Nat
  data : List OrderLineItem
  sourceFileUrl : Option String
  errorMsg : Option String

/-- The normalizer context assembled by the handler: hints from lines
79-80, the storage object name from lines 92-93, and the public URL. -/
def mkCtx (env : Env) (form : FormContents) (file : FileInfo) : Ctx :=
  { vendorHint := form.vendorField.getD ""
    customerHint := form.customerField.getD ""
    fileName := "public/" ++ toString env.timestamp ++ "-" ++ env.randSuffix
      ++ "." ++ fileExtOf file.name
    publicUrl := env.publicUrl
    timestamp := env.timestamp
    nowIso := env.nowIso }

/-- Model of the `Deno.serve` callback (lines 56-264): CORS preflight,
configuration check, form parsing, the missing-file check, storage
upload, content preparation, the OpenAI call, normalization, and the
catch-all.  Content preparation affects only the prompt sent upstream
(its text part is `extractFullText` on the PDF path), so it surfaces
here only through its possible exception. -/
def mainHandler (env : Env) (req : MainRequest) : MainResponse × Effects :=
  if req.method == "OPTIONS" then
    ({ status := 200, data := [], sourceFileUrl := none, errorMsg := none },
     ⟨false, false⟩)
  else if !env.apiKeyPresent then
    ({ status := 500, data := [], sourceFileUrl := none,
       errorMsg := some "OpenAI API key not configured" }, ⟨false, false⟩)
  else
    match req.form with
    | none =>
      ({ status := 500, data := [], sourceFileUrl := none,
         errorMsg := some "Internal server error" }, ⟨false, false⟩)
    | some form =>
      match form.file with
      | none =>
        ({ status := 400, data := [], sourceFileUrl := none,
           errorMsg := some "No file provided" }, ⟨false, false⟩)
      | some file =>
        if env.uploadFails then
          ({ status := 500, data := [], sourceFileUrl := none,
             errorMsg := some "Failed to upload file" }, ⟨true, false⟩)
        else if env.extractionThrows then
          ({ status := 500, data := [], sourceFileUrl := none,
             errorMsg := some "Internal server error" }, ⟨true, false⟩)
        else if env.openaiFails then
          ({ status := 500, data := [], sourceFileUrl := none,
             errorMsg := some "Failed to process file with AI" }, ⟨true, true⟩)
        else
          ({ status := 200,
             data := normalize env.completion (mkCtx env form file),
             sourceFileUrl := some env.publicUrl, errorMsg := none },
           ⟨true, true⟩)

/-! The alternate ingestion handler (`src/unnamed/part_000`). -/

/-- Outcome of the `fetch(fileUrl)` call: an exception, or a response
with its `ok` flag. -/
inductive FetchOutcome where
  | throws
  | returns (ok : Bool)

/-- Outcomes of the alternate handler's external calls: the remote
fetch, and whether reading the body or `pdf-parse` throws. -/
structure AltEnv where
  fetchOutcome : FetchOutcome
  pdfThrows : Bool
  pdfText : String
  errMessage : String

/-- An inbound request to the alternate handler; `fileUrl = none` models
an absent or falsy `fileUrl` in the JSON body. -/
structure AltRequest where
  method : String
  fileUrl : Option String

/-- A response from the alternate handler. -/
structure AltResponse where
  status : Nat
  text : Option String
  errorMsg : Option String

/-- Model of the alternate handler (part_000 lines 5-25): OPTIONS gets
204; a missing `fileUrl` gets 400; a fetch that returns non-ok gets 400;
an exception from the fetch or from body reading / `pdf-parse` reaches
the catch and gets 500; otherwise 200 with the extracted text. -/
def altHandler (env : AltEnv) (req : AltRequest) : AltResponse :=
  if req.method == "OPTIONS" then
    { status := 204, text := none, errorMsg := none }
  else
    match req.fileUrl with
    | none => { status := 400, text := none, errorMsg := some "Missing fileUrl" }
    | some _ =>
      match env.fetchOutcome with
      | .throws => { status := 500, text := none, errorMsg := some env.errMessage }
      | .returns ok =>
        if !ok then
          { status := 400, text := none, errorMsg := some "Could not fetch fileUrl" }
        else if env.pdfThrows then
          { status := 500, text := none, errorMsg := some env.errMessage }
        else
          { status := 200, text := some env.pdfText, errorMsg := none }

/-! Spec-side auxiliary definitions, used only to compare the code's
behaviour with the spec's words. -/

/-- Modelled from the spec: "ISO date string (`YYYY-MM-DD`)" — ten
characters, four digits, dash, two digits, dash, two digits. -/
def isIsoDateShape (s : String) : Bool :=
  match s.data with
  | [y1, y2, y3, y4, s1, m1, m2, s2, d1, d2] =>
    y1.isDigit && y2.isDigit && y3.isDigit && y4.isDigit &&
    (s1 == '-') && m1.isDigit && m2.isDigit && (s2 == '-') &&
    d1.isDigit && d2.isDigit
  | _ => false

/-- A shared concrete context for concrete evaluations. -/
def sampleCtx : Ctx :=
  { vendorHint := "", customerHint := "", fileName := "public/0-ab.pdf",
    publicUrl := "http://storage/inv.pdf", timestamp := 0, nowIso := "t0" }

/-! Helper lemmas. -/

/-- The output invariant of the spec's §3 on one record: none of the
untrusted-valued fields is `undefined`, and the date field is either
`null` (absent) or a truthy passed-through value, never `undefined`.
The remaining fields (`id`, `source_invoice_id`, `quantity`,
`created_at`, `source_file_url`, `needs_review`) carry total Lean types
in the embedding because the code always assigns them typed values, so
their presence is structural. -/
def fullyDefaulted (rec : OrderLineItem) : Prop :=
  isUndefined rec.vendor_name = false ∧ isUndefined rec.customer_name = false ∧
  isUndefined rec.style_number = false ∧ isUndefined rec.notes = false ∧
  isUndefined rec.eta_date = false ∧
  (rec.eta_date = JsVal.null ∨ truthy rec.eta_date = true)

theorem isUndefined_of_truthy {a : JsVal} (h : truthy a = true) : isUndefined a = false := by
  cases a <;> simp_all [truthy, isUndefined]

theorem isUndefined_jsOr {a b : JsVal} (hb : isUndefined b = false) :
    isUndefined (jsOr a b) = false := by
  unfold jsOr
  by_cases h : truthy a
  · simp [h, isUndefined_of_truthy h]
  · simp [h, hb]

theorem jsOr_null_cases (e : JsVal) :
    jsOr e .null = .null ∨ truthy (jsOr e .null) = true := by
  unfold jsOr
  by_cases h : truthy e
  · right; simp [h]
  · left; simp [h]

theorem mapItemCore_defaulted (ctx : Ctx) (i : Nat) (item : JsVal) :
    fullyDefaulted (mapItemCore ctx i item) := by
  unfold fullyDefaulted mapItemCore
  refine ⟨?_, ?_, ?_, ?_, ?_, ?_⟩
  · exact isUndefined_jsOr (isUndefined_jsOr rfl)
  · exact isUndefined_jsOr (isUndefined_jsOr rfl)
  · exact isUndefined_jsOr rfl
  · exact isUndefined_jsOr rfl
  · exact isUndefined_jsOr rfl
  · exact jsOr_null_cases _

theorem fallbackRecord_defaulted (ctx : Ctx) :
    fullyDefaulted (fallbackRecord ctx) := by
  unfold fullyDefaulted fallbackRecord
  refine ⟨isUndefined_jsOr rfl, isUndefined_jsOr rfl, rfl, rfl, rfl, Or.inl rfl⟩

theorem mapItemsAux_mem {ctx : Ctx} :
    ∀ (xs : List JsVal) (n : Nat) (recs : List OrderLineItem),
      mapItemsAux ctx n xs = .ok recs →
      ∀ rec ∈ recs, ∃ i x, rec = mapItemCore ctx i x := by
  intro xs
  induction xs with
  | nil =>
    intro n recs h rec hrec
    simp only [mapItemsAux] at h
    cases h
    simp at hrec
  | cons x xs ih =>
    intro n recs h rec hrec
    simp only [mapItemsAux, mapItem] at h
    by_cases hx : isNullish x
    · simp [hx] at h
    · simp only [hx, Bool.false_eq_true, if_false] at h
      cases hrest : mapItemsAux ctx (n + 1) xs with
      | error e => rw [hrest] at h; exact absurd h (by simp)
      | ok rs =>
        rw [hrest] at h
        simp only [Except.ok.injEq] at h
        subst h
        rcases List.mem_cons.mp hrec with h1 | h1
        · exact ⟨n, x, h1⟩
        · exact ih (n + 1) rs hrest rec h1

theorem mapItemsAux_ok_of_not_nullish (ctx : Ctx) :
    ∀ (xs : List JsVal) (n : Nat), (∀ x ∈ xs, isNullish x = false) →
      mapItemsAux ctx n xs =
        .ok ((xs.enumFrom n).map (fun p => mapItemCore ctx p.1 p.2)) := by
  intro xs
  induction xs with
  | nil => intro n _; simp [mapItemsAux]
  | cons x xs ih =>
    intro n hall
    have hx : isNullish x = false := hall x (by simp)
    have hrest := ih (n + 1) (fun y hy => hall y (by simp [hy]))
    simp [mapItemsAux, mapItem, hx, hrest, List.enumFrom]

theorem mapItemsAux_error_of_nullish {ctx : Ctx} :
    ∀ (xs : List JsVal) (n : Nat), (∃ x ∈ xs, isNullish x = true) →
      mapItemsAux ctx n xs = .error () := by
  intro xs
  induction xs with
  | nil => intro n h; simp at h
  | cons x xs ih =>
    intro n h
    by_cases hx : isNullish x
    · simp [mapItemsAux, mapItem, hx]
    · rcases h with ⟨y, hy, hny⟩
      rcases List.mem_cons.mp hy with h1 | h1
      · subst h1; exact absurd hny (by simp [hx])
      · simp [mapItemsAux, mapItem, hx, ih (n + 1) ⟨y, h1, hny⟩]

theorem normalizeParsed_defaulted (ctx : Ctx) (res : Except Unit JsVal) :
    ∀ rec ∈ normalizeParsed ctx res, fullyDefaulted rec := by
  intro rec hrec
  cases res with
  | error e =>
    simp [normalizeParsed] at hrec
    subst hrec
    exact fallbackRecord_defaulted ctx
  | ok v =>
    cases v with
    | arr xs =>
      cases h2 : mapItemsAux ctx 0 xs with
      | error e =>
        simp [normalizeParsed, h2] at hrec
        subst hrec
        exact fallbackRecord_defaulted ctx
      | ok recs =>
        simp only [normalizeParsed, h2] at hrec
        obtain ⟨i, x, hx⟩ := mapItemsAux_mem xs 0 recs h2 rec hrec
        subst hx
        exact mapItemCore_defaulted ctx i x
    | undefined => simp [normalizeParsed] at hrec; subst hrec; exact fallbackRecord_defaulted ctx
    | null => simp [normalizeParsed] at hrec; subst hrec; exact fallbackRecord_defaulted ctx
    | bool b => simp [normalizeParsed] at hrec; subst hrec; exact fallbackRecord_defaulted ctx
    | num n => simp [normalizeParsed] at hrec; subst hrec; exact fallbackRecord_defaulted ctx
    | numNI r => simp [normalizeParsed] at hrec; subst hrec; exact fallbackRecord_defaulted ctx
    | str s => simp [normalizeParsed] at hrec; subst hrec; exact fallbackRecord_defaulted ctx
    | obj fs => simp [normalizeParsed] at hrec; subst hrec; exact fallbackRecord_defaulted ctx

theorem normalize_defaulted (raw : String) (ctx : Ctx) :
    ∀ rec ∈ normalize raw ctx, fullyDefaulted rec := by
  intro rec hrec
  exact normalizeParsed_defaulted ctx _ rec hrec

theorem breakAtFirst_eq_some {c : Char} :
    ∀ {cs a r : List Char}, breakAtFirst c cs = some (a, r) →
      cs = a ++ r ∧ (∀ x ∈ a, x ≠ c) ∧ ∃ r2, r = c :: r2 := by
  intro cs
  induction cs with
  | nil => intro a r h; simp [breakAtFirst] at h
  | cons x xs ih =>
    intro a r h
    by_cases hx : x = c
    · rw [breakAtFirst, if_pos hx] at h
      simp only [Option.some.injEq, Prod.mk.injEq] at h
      obtain ⟨ha, hr⟩ := h
      subst ha; subst hr; subst hx
      exact ⟨rfl, by simp, xs, rfl⟩
    · rw [breakAtFirst, if_neg hx] at h
      cases hb : breakAtFirst c xs with
      | none => rw [hb] at h; simp at h
      | some p =>
        rw [hb] at h
        simp only [Option.map_some', Option.some.injEq, Prod.mk.injEq] at h
        obtain ⟨ha, hr⟩ := h
        obtain ⟨h1, h2, r2, h3⟩ :=
          ih (show breakAtFirst c xs = some (p.1, p.2) by rw [hb])
        subst ha; subst hr
        refine ⟨by rw [h1]; rfl, ?_, r2, h3⟩
        intro y hy
        rcases List.mem_cons.mp hy with h4 | h4
        · subst h4; exact hx
        · exact h2 y h4

theorem breakAtFirst_eq_none {c : Char} :
    ∀ {cs : List Char}, breakAtFirst c cs = none → ∀ x ∈ cs, x ≠ c := by
  intro cs
  induction cs with
  | nil => intro _ x hx; simp at hx
  | cons y ys ih =>
    intro h x hx
    by_cases hy : y = c
    · rw [breakAtFirst, if_pos hy] at h; simp at h
    · rw [breakAtFirst, if_neg hy] at h
      cases hb : breakAtFirst c ys with
      | some p => rw [hb] at h; simp at h
      | none =>
        rcases List.mem_cons.mp hx with h1 | h1
        · subst h1; exact hy
        · exact ih hb x h1

theorem extractTextLoop_spec :
    ∀ (ps : List (List Char)) (acc : List Char) (i : Nat),
      acc.length ≤ MAX_TEXT_CHARS →
      ∃ k, k ≤ ps.length ∧
        extractTextLoop acc i ps = acc ++ pagesJoined i (ps.take k) ∧
        (k < ps.length →
          MAX_TEXT_CHARS < (acc ++ pagesJoined i (ps.take k)).length) ∧
        (∀ j < k, (acc ++ pagesJoined i (ps.take j)).length ≤ MAX_TEXT_CHARS) := by
  intro ps
  induction ps with
  | nil =>
    intro acc i hacc
    refine ⟨0, Nat.le_refl 0, ?_, ?_, ?_⟩
    · simp [extractTextLoop, pagesJoined]
    · intro h; simp at h
    · intro j hj; simp at hj
  | cons p ps ih =>
    intro acc i hacc
    by_cases hlen : MAX_TEXT_CHARS < (acc ++ pageMarker i ++ p).length
    · refine ⟨1, by simp only [List.length_cons]; omega, ?_, ?_, ?_⟩
      · simp only [extractTextLoop]
        split
        · simp [pagesJoined]
        · rename_i hcond
          exact absurd hlen hcond
      · intro _
        simpa [pagesJoined, List.append_assoc] using hlen
      · intro j hj
        interval_cases j
        simpa [pagesJoined] using hacc
    · push_neg at hlen
      obtain ⟨k, hk, heq, hstop, hmono⟩ := ih (acc ++ pageMarker i ++ p) (i + 1) hlen
      refine ⟨k + 1, by simp only [List.length_cons]; omega, ?_, ?_, ?_⟩
      · simp only [extractTextLoop]
        split
        · rename_i hcond
          exact absurd hcond (by push_neg; exact hlen)
        · rw [heq]
          simp [pagesJoined, List.append_assoc]
      · intro hklt
        have hklt2 : k < ps.length := by
          simp only [List.length_cons] at hklt
          omega
        have := hstop hklt2
        simpa [pagesJoined, List.append_assoc] using this
      · intro j hj
        cases j with
        | zero => simpa [pagesJoined] using hacc
        | succ j2 =>
          have := hmono j2 (by omega)
          simpa [pagesJoined, List.append_assoc] using this

/-! The claim theorems. -/

/-- C7: for every text-bearing (PDF) document, the extracted text handed
to the prompt never exceeds the 15,000-character budget; the result is a
truncation of the marker-and-page concatenation `pagesJoined 1` over an
initial segment of the pages, whose markers carry the strictly
increasing page numbers 1, 2, ...; and extraction stops early — a page
is extracted beyond position `k` for no `k` at which the accumulated
length already exceeds the budget (and pages before the stopping point
never exceed it). -/
theorem c7_text_budget_and_markers :
    ∀ pages : List (List Char),
      (extractFullText pages).length ≤ MAX_TEXT_CHARS ∧
      ∃ k, k ≤ pages.length ∧
        extractFullText pages = (pagesJoined 1 (pages.take k)).take MAX_TEXT_CHARS ∧
        (k < pages.length → MAX_TEXT_CHARS < (pagesJoined 1 (pages.take k)).length) ∧
        (∀ j < k, (pagesJoined 1 (pages.take j)).length ≤ MAX_TEXT_CHARS) := by
  intro pages
  obtain ⟨k, hk, heq, hstop, hmono⟩ :=
    extractTextLoop_spec pages [] 1 (by simp [MAX_TEXT_CHARS])
  simp only [List.nil_append] at heq hstop hmono
  constructor
  · unfold extractFullText
    split
    · rw [List.length_take]
      exact min_le_left _ _
    · rename_i h
      push_neg at h
      exact h
  · refine ⟨k, hk, ?_, hstop, hmono⟩
    unfold extractFullText
    rw [heq]
    split
    · rfl
    · rename_i h
      push_neg at h
      rw [List.take_of_length_le h]

/-- Witness for C7 at a concrete one-page document. -/
theorem c7_text_budget_and_markers_witness :
    extractFullText ["Invoice page one".data] =
      pageMarker 1 ++ "Invoice page one".data ∧
    (extractFullText ["Invoice page one".data]).length ≤ MAX_TEXT_CHARS :=
  ⟨by decide, (c7_text_budget_and_markers ["Invoice page one".data]).1⟩

/-- C9: a request (other than a CORS preflight, on a configured
deployment) whose parsed multipart form has no `file` field gets an HTTP
400 response with the client-input error body, and neither the storage
upload nor the inference call is attempted. -/
theorem c9_missing_file_400 :
    ∀ (env : Env) (req : MainRequest) (form : FormContents),
      req.method ≠ "OPTIONS" → env.apiKeyPresent = true →
      req.form = some form → form.file = none →
      mainHandler env req =
        ({ status := 400, data := [], sourceFileUrl := none,
           errorMsg := some "No file provided" },
         { uploadAttempted := false, inferenceAttempted := false }) := by
  intro env req form hm hk hf hfile
  simp [mainHandler, hm, hk, hf, hfile]

/-- Witness for C9 at a concrete request. -/
theorem c9_missing_file_400_witness :
    mainHandler
      { apiKeyPresent := true, uploadFails := false, extractionThrows := false,
        openaiFails := false, completion := "", publicUrl := "u",
        timestamp := 0, randSuffix := "r", nowIso := "t" }
      { method := "POST",
        form := some { file := none, vendorField := none, customerField := none } } =
      ({ status := 400, data := [], sourceFileUrl := none,
         errorMsg := some "No file provided" },
       { uploadAttempted := false, inferenceAttempted := false }) :=
  c9_missing_file_400 _ _ _ (by decide) rfl rfl rfl

/-- C10: in the alternate ingestion handler, a present `fileUrl` whose
fetch returns a non-success status yields HTTP 400 with an error body,
and a 500 response arises only from an exception thrown by the fetch or
by body reading / PDF text extraction. -/
theorem c10_fetch_fail_400 :
    ∀ (env : AltEnv) (req : AltRequest),
      (req.method ≠ "OPTIONS" → (∃ u, req.fileUrl = some u) →
        env.fetchOutcome = FetchOutcome.returns false →
        altHandler env req =
          { status := 400, text := none,
            errorMsg := some "Could not fetch fileUrl" }) ∧
      ((altHandler env req).status = 500 →
        env.fetchOutcome = FetchOutcome.throws ∨ env.pdfThrows = true) := by
  intro env req
  constructor
  · rintro hm ⟨u, hu⟩ hf
    simp [altHandler, hm, hu, hf]
  · intro h500
    unfold altHandler at h500
    by_cases hm : req.method == "OPTIONS"
    · rw [if_pos hm] at h500
      simp at h500
    · rw [if_neg hm] at h500
      cases hu : req.fileUrl with
      | none => rw [hu] at h500; simp at h500
      | some u =>
        rw [hu] at h500
        cases hf : env.fetchOutcome with
        | throws => exact Or.inl rfl
        | returns ok =>
          rw [hf] at h500
          cases ok with
          | false => simp at h500
          | true =>
            by_cases hp : env.pdfThrows
            · exact Or.inr hp
            · simp [hp] at h500

/-- Witness for C10 at concrete requests: a failed fetch gets 400, and a
throwing fetch (the 500 case) satisfies the disjunction. -/
theorem c10_fetch_fail_400_witness :
    altHandler
      { fetchOutcome := FetchOutcome.returns false, pdfThrows := false,
        pdfText := "", errMessage := "boom" }
      { method := "POST", fileUrl := some "http://x" } =
      { status := 400, text := none, errorMsg := some "Could not fetch fileUrl" } ∧
    (FetchOutcome.throws = FetchOutcome.throws ∨ false = true) :=
  ⟨(c10_fetch_fail_400 _ _).1 (by decide) ⟨"http://x", rfl⟩ rfl,
   (c10_fetch_fail_400
      { fetchOutcome := FetchOutcome.throws, pdfThrows := false,
        pdfText := "", errMessage := "boom" }
      { method := "POST", fileUrl := some "http://x" }).2 (by decide)⟩

/-- C1: every record in any HTTP 200 response of the main handler is
fully defaulted (no untrusted-valued field is `undefined`, the date is
either absent (`null`) or a present value), and on the path past a
successful inference call the response is 200 for every completion text
whatsoever — malformed model output degrades through defaulting or the
fallback record instead of producing a missing field or an error
response. -/
theorem c1_response_items_fully_defaulted :
    ∀ (env : Env) (req : MainRequest),
      ((mainHandler env req).1.status = 200 →
        ∀ rec ∈ (mainHandler env req).1.data, fullyDefaulted rec) ∧
      (req.method ≠ "OPTIONS" → env.apiKeyPresent = true →
        (∃ form, req.form = some form ∧ ∃ file, form.file = some file) →
        env.uploadFails = false → env.extractionThrows = false →
        env.openaiFails = false → (mainHandler env req).1.status = 200) := by
  intro env req
  constructor
  · intro h200 rec hrec
    unfold mainHandler at h200 hrec
    by_cases hm : req.method == "OPTIONS"
    · rw [if_pos hm] at hrec
      simp at hrec
    · rw [if_neg hm] at h200 hrec
      by_cases hk : env.apiKeyPresent
      · simp only [hk, Bool.not_true, Bool.false_eq_true, if_false] at h200 hrec
        cases hf : req.form with
        | none => simp only [hf] at hrec; simp at hrec
        | some form =>
          simp only [hf] at h200 hrec
          cases hfile : form.file with
          | none => simp only [hfile] at hrec; simp at hrec
          | some file =>
            simp only [hfile] at h200 hrec
            by_cases hu : env.uploadFails
            · simp only [hu, if_true] at hrec; simp at hrec
            · simp only [hu, Bool.false_eq_true, if_false] at h200 hrec
              by_cases hx : env.extractionThrows
              · simp only [hx, if_true] at hrec; simp at hrec
              · simp only [hx, Bool.false_eq_true, if_false] at h200 hrec
                by_cases ho : env.openaiFails
                · simp only [ho, if_true] at hrec; simp at hrec
                · simp only [ho, Bool.false_eq_true, if_false] at hrec
                  exact normalize_defaulted env.completion
                    (mkCtx env form file) rec hrec
      · simp only [hk, Bool.not_false, if_true] at h200
        simp at h200
  · rintro hm hk ⟨form, hf, file, hfile⟩ hu hx ho
    simp [mainHandler, hm, hk, hf, hfile, hu, hx, ho]

/-- Witness for C1: a configured deployment, a present file, and a
completion that is pure prose with an unparseable bracket substring
still produce a 200 response whose single fallback record is fully
defaulted. -/
theorem c1_response_items_fully_defaulted_witness :
    (mainHandler
      { apiKeyPresent := true, uploadFails := false, extractionThrows := false,
        openaiFails := false, completion := "Here you go: [oops", publicUrl := "u",
        timestamp := 0, randSuffix := "r", nowIso := "t" }
      { method := "POST",
        form := some
          { file := some { name := "inv.pdf", contentType := "application/pdf",
                           pdfPages := [] },
            vendorField := none, customerField := none } }).1.status = 200 ∧
    ∀ rec ∈ (mainHandler
      { apiKeyPresent := true, uploadFails := false, extractionThrows := false,
        openaiFails := false, completion := "Here you go: [oops", publicUrl := "u",
        timestamp := 0, randSuffix := "r", nowIso := "t" }
      { method := "POST",
        form := some
          { file := some { name := "inv.pdf", contentType := "application/pdf",
                           pdfPages := [] },
            vendorField := none, customerField := none } }).1.data,
      fullyDefaulted rec := by
  have h := c1_response_items_fully_defaulted
    { apiKeyPresent := true, uploadFails := false, extractionThrows := false,
      openaiFails := false, completion := "Here you go: [oops", publicUrl := "u",
      timestamp := 0, randSuffix := "r", nowIso := "t" }
    { method := "POST",
      form := some
        { file := some { name := "inv.pdf", contentType := "application/pdf",
                         pdfPages := [] },
          vendorField := none, customerField := none } }
  have hs := h.2 (by decide) rfl ⟨_, rfl, _, rfl⟩ rfl rfl rfl
  exact ⟨hs, h.1 hs⟩

theorem truthy_of_jsOr_false {a b : JsVal} (h : truthy (jsOr a b) = false) :
    truthy a = false := by
  unfold jsOr at h
  by_cases ha : truthy a
  · rw [if_pos ha] at h
    exact absurd ha (by simp [h])
  · simpa using ha

/-- C2 (amended): the `needs_review` flag of a mapped record is the
model's flag ORed with the falsiness of the raw `vendor_name`,
`customer_name` and `style_number` values of the item, checked before
hint defaulting — so a field that is empty after defaulting still forces
the flag to true (the direction the spec states), but a hint that fills
in an omitted field does not clear the flag: the raw-field check fires
regardless of the hints. -/
theorem c2_needs_review_raw_fields :
    ∀ (ctx : Ctx) (i : Nat) (item : JsVal),
      (mapItemCore ctx i item).needs_review =
        (truthy (propOrUndefined item "needs_review") ||
         !(truthy (propOrUndefined item "vendor_name")) ||
         !(truthy (propOrUndefined item "customer_name")) ||
         !(truthy (propOrUndefined item "style_number"))) ∧
      ((truthy (mapItemCore ctx i item).vendor_name = false ∨
        truthy (mapItemCore ctx i item).customer_name = false ∨
        truthy (mapItemCore ctx i item).style_number = false) →
        (mapItemCore ctx i item).needs_review = true) := by
  intro ctx i item
  refine ⟨rfl, ?_⟩
  intro h
  rcases h with h | h | h
  · have hv := truthy_of_jsOr_false (by simpa [mapItemCore] using h)
    simp [mapItemCore, hv]
  · have hc := truthy_of_jsOr_false (by simpa [mapItemCore] using h)
    simp [mapItemCore, hc]
  · have hs := truthy_of_jsOr_false (by simpa [mapItemCore] using h)
    simp [mapItemCore, hs]

/-- Witness for C2 at a concrete item whose raw fields are all absent:
the empty-after-defaulting direction forces the flag. -/
theorem c2_needs_review_raw_fields_witness :
    (mapItemCore sampleCtx 0
      (JsVal.obj [("needs_review", JsVal.bool false)])).needs_review = true :=
  (c2_needs_review_raw_fields sampleCtx 0
    (JsVal.obj [("needs_review", JsVal.bool false)])).2 (Or.inl rfl)

/-- C2 counterexample: the model omits `vendor_name` and reports
`needs_review: false`; the caller's vendor hint fills the normalized
field (it is truthy, as are customer and style), so the claim's
iff predicts `needsReview = false`, yet the code sets it to true. -/
theorem c2_hint_not_considered_cex :
    (mapItemCore
      { vendorHint := "Acme Corp", customerHint := "", fileName := "f.pdf",
        publicUrl := "u", timestamp := 0, nowIso := "t" } 0
      (JsVal.obj [("customer_name", JsVal.str "Cust"),
                  ("style_number", JsVal.str "S1"),
                  ("needs_review", JsVal.bool false)])).needs_review = true ∧
    truthy (mapItemCore
      { vendorHint := "Acme Corp", customerHint := "", fileName := "f.pdf",
        publicUrl := "u", timestamp := 0, nowIso := "t" } 0
      (JsVal.obj [("customer_name", JsVal.str "Cust"),
                  ("style_number", JsVal.str "S1"),
                  ("needs_review", JsVal.bool false)])).vendor_name = true ∧
    truthy (mapItemCore
      { vendorHint := "Acme Corp", customerHint := "", fileName := "f.pdf",
        publicUrl := "u", timestamp := 0, nowIso := "t" } 0
      (JsVal.obj [("customer_name", JsVal.str "Cust"),
                  ("style_number", JsVal.str "S1"),
                  ("needs_review", JsVal.bool false)])).customer_name = true ∧
    truthy (mapItemCore
      { vendorHint := "Acme Corp", customerHint := "", fileName := "f.pdf",
        publicUrl := "u", timestamp := 0, nowIso := "t" } 0
      (JsVal.obj [("customer_name", JsVal.str "Cust"),
                  ("style_number", JsVal.str "S1"),
                  ("needs_review", JsVal.bool false)])).style_number = true ∧
    truthy (propOrUndefined
      (JsVal.obj [("customer_name", JsVal.str "Cust"),
                  ("style_number", JsVal.str "S1"),
                  ("needs_review", JsVal.bool false)]) "needs_review") = false :=
  ⟨rfl, rfl, rfl, rfl, rfl⟩

/-- C6 (amended): the normalized quantity is `parseInt` (base 10,
applied to the JavaScript string coercion of the raw value) with `NaN`
and zero mapped to `0`; `"12 pcs"` yields 12 and empty or non-numeric
values yield 0, but the result is negative whenever the raw value parses
to a negative integer — it is not clamped to non-negative. -/
theorem c6_quantity_parseint :
    (∀ (ctx : Ctx) (i : Nat) (item : JsVal),
      (mapItemCore ctx i item).quantity =
        match parseIntStr (jsToString (propOrUndefined item "quantity")) with
        | none => 0
        | some n => if n = 0 then 0 else n) ∧
    (mapItemCore sampleCtx 0
      (JsVal.obj [("quantity", JsVal.str "12 pcs")])).quantity = 12 ∧
    (mapItemCore sampleCtx 0
      (JsVal.obj [("quantity", JsVal.str "")])).quantity = 0 ∧
    (mapItemCore sampleCtx 0
      (JsVal.obj [("quantity", JsVal.str "unknown")])).quantity = 0 :=
  ⟨fun _ _ _ => rfl, rfl, rfl, rfl⟩

/-- C6 counterexample: a raw quantity of `"-5"` parses to `-5`, which
`|| 0` does not replace, so the normalized quantity is negative —
refuting "the result is never negative, for every possible raw quantity
value". -/
theorem c6_negative_quantity_cex :
    (mapItemCore sampleCtx 0
      (JsVal.obj [("quantity", JsVal.str "-5")])).quantity = -5 ∧
    (mapItemCore sampleCtx 0
      (JsVal.obj [("quantity", JsVal.str "-5")])).quantity < 0 :=
  ⟨rfl, by decide⟩

/-- C8 (amended): the normalized `eta_date` is the raw value passed
through whenever that value is truthy, and `null` (absent) exactly when
the raw value is falsy; no date-format validation is performed, so an
invalid or ambiguous date string is forwarded as-is rather than replaced
by absent. -/
theorem c8_eta_passthrough :
    ∀ (ctx : Ctx) (i : Nat) (item : JsVal),
      ((mapItemCore ctx i item).eta_date = JsVal.null ↔
        truthy (propOrUndefined item "eta_date") = false) ∧
      (truthy (propOrUndefined item "eta_date") = true →
        (mapItemCore ctx i item).eta_date = propOrUndefined item "eta_date") := by
  intro ctx i item
  constructor
  · constructor
    · intro h
      by_cases he : truthy (propOrUndefined item "eta_date")
      · exfalso
        have heq : (mapItemCore ctx i item).eta_date = propOrUndefined item "eta_date" := by
          simp [mapItemCore, jsOr, he]
        rw [heq] at h
        rw [h] at he
        simp [truthy] at he
      · simpa using he
    · intro h
      simp [mapItemCore, jsOr, h]
  · intro h
    simp [mapItemCore, jsOr, h]

/-- Witness for C8: a truthy date value is forwarded verbatim. -/
theorem c8_eta_passthrough_witness :
    (mapItemCore sampleCtx 0
      (JsVal.obj [("eta_date", JsVal.str "2024-05-01")])).eta_date =
      propOrUndefined (JsVal.obj [("eta_date", JsVal.str "2024-05-01")]) "eta_date" :=
  (c8_eta_passthrough sampleCtx 0
    (JsVal.obj [("eta_date", JsVal.str "2024-05-01")])).2 rfl

/-- C8 counterexample: a raw `eta_date` of `"sometime soon"` is
forwarded as-is — the result is neither `null` (absent) nor a string of
the `YYYY-MM-DD` shape, refuting "invalid or ambiguous date values are
passed through as absent". -/
theorem c8_invalid_date_forwarded_cex :
    (mapItemCore sampleCtx 0
      (JsVal.obj [("eta_date", JsVal.str "sometime soon")])).eta_date =
      JsVal.str "sometime soon" ∧
    isNull (mapItemCore sampleCtx 0
      (JsVal.obj [("eta_date", JsVal.str "sometime soon")])).eta_date = false ∧
    isIsoDateShape "sometime soon" = false :=
  ⟨rfl, rfl, rfl⟩

/-- C3 (amended): when the greedy bracket match exists but fails to
parse as JSON, the result is exactly one fallback record, with
`needs_review = true`, quantity 0, absent date, and the
extraction-failure note; when the raw completion contains no bracket
match at all, the substituted text `"[]"` parses to an empty array and
the result is the empty list — no fallback record is produced. -/
theorem c3_unparseable_match_fallback :
    ∀ (raw : String) (ctx : Ctx),
      (extractArraySubstring raw = none → normalize raw ctx = []) ∧
      (∀ t, extractArraySubstring raw = some t →
        parseJson t.data = Except.error () →
        normalize raw ctx = [fallbackRecord ctx]) ∧
      (fallbackRecord ctx).needs_review = true ∧
      (fallbackRecord ctx).quantity = 0 ∧
      (fallbackRecord ctx).eta_date = JsVal.null ∧
      (fallbackRecord ctx).notes =
        JsVal.str "AI extraction failed - manual review required" := by
  intro raw ctx
  refine ⟨?_, ?_, rfl, rfl, rfl, rfl⟩
  · intro h
    unfold normalize
    rw [h]
    rfl
  · intro t h hp
    unfold normalize
    rw [h, Option.getD_some, hp]
    rfl

/-- Witness for C3: a completion whose bracket substring is not JSON
produces the single fallback record. -/
theorem c3_unparseable_match_fallback_witness :
    normalize "no data [oops]" sampleCtx = [fallbackRecord sampleCtx] :=
  (c3_unparseable_match_fallback "no data [oops]" sampleCtx).2.1 "[oops]" rfl rfl

/-- C3 counterexample: a prose completion with no bracket at all
contains no parseable JSON array, yet the normalizer returns the empty
list — zero records, not "exactly one fallback record". -/
theorem c3_no_array_empty_result_cex :
    extractArraySubstring "no line items found" = none ∧
    normalize "no line items found" sampleCtx = [] :=
  ⟨rfl, rfl⟩

/-- C4 (amended): the selected substring is the greedy regex match —
it runs from the first `[` that precedes the last `]` through that last
`]` (so the text decomposes as a `[`-free part, the match beginning with
`[` and ending with `]`, and a `]`-free tail); it is not the first
balanced array.  When no `[` ... `]` pair exists at all there is no
match and the parsed text is `"[]"`, so the normalizer returns the empty
list. -/
theorem c4_greedy_match_spec :
    ∀ (s : String) (ctx : Ctx),
      (∀ t, extractArraySubstring s = some t →
        ∃ a b, s.data = a ++ t.data ++ b ∧ (∀ x ∈ a, x ≠ '[') ∧
          (∀ x ∈ b, x ≠ ']') ∧ (∃ u, t.data = '[' :: u) ∧
          (∃ w, t.data = w ++ [']'])) ∧
      (extractArraySubstring s = none →
        (¬ ∃ a m b, s.data = a ++ '[' :: (m ++ ']' :: b)) ∧
        normalize s ctx = []) := by
  intro s ctx
  constructor
  · intro t h
    unfold extractArraySubstring at h
    cases hb1 : breakAtFirst ']' s.data.reverse with
    | none => rw [hb1] at h; simp at h
    | some p1 =>
      obtain ⟨p11, p12⟩ := p1
      simp only [hb1] at h
      cases hb2 : breakAtFirst '[' p12.reverse with
      | none =>
        simp only [hb2] at h
        exact Option.noConfusion h
      | some p2 =>
        obtain ⟨p21, p22⟩ := p2
        simp only [hb2, Option.some.injEq] at h
        subst h
        obtain ⟨e1, e2, m1, e3⟩ := breakAtFirst_eq_some hb1
        obtain ⟨f1, f2, m2, f3⟩ := breakAtFirst_eq_some hb2
        have hs : s.data = p12.reverse ++ p11.reverse := by
          have hrev := congrArg List.reverse e1
          simpa [List.reverse_append] using hrev
        have hcat : p21 ++ p22 = m1.reverse ++ [']'] := by
          rw [← f1, e3]
          simp [List.reverse_cons]
        refine ⟨p21, p11.reverse, ?_, f2, ?_, ⟨m2, f3⟩, ?_⟩
        · rw [hs, f1, List.append_assoc]
        · intro x hxm
          exact e2 x (List.mem_reverse.mp hxm)
        · rcases List.eq_nil_or_concat p22 with hnil | ⟨w, z, hwz⟩
          · rw [hnil] at f3
            simp at f3
          · have h1 : (p21 ++ p22).getLast? = some z := by
              rw [hwz, List.concat_eq_append, ← List.append_assoc]
              exact List.getLast?_concat _
            rw [hcat, List.getLast?_concat] at h1
            have hz : z = ']' := by
              injection h1 with h1
              exact h1.symm
            exact ⟨w, by rw [show (⟨p22⟩ : String).data = p22 from rfl,
              hwz, List.concat_eq_append, hz]⟩
  · intro h
    constructor
    · rintro ⟨a, m, b, habs⟩
      unfold extractArraySubstring at h
      cases hb1 : breakAtFirst ']' s.data.reverse with
      | none =>
        have hnone := breakAtFirst_eq_none hb1
        have hmem : (']' : Char) ∈ s.data.reverse := by
          rw [habs]
          simp
        exact hnone ']' hmem rfl
      | some p1 =>
        obtain ⟨p11, p12⟩ := p1
        simp only [hb1] at h
        cases hb2 : breakAtFirst '[' p12.reverse with
        | some p2 =>
          obtain ⟨p21, p22⟩ := p2
          simp only [hb2] at h
          exact Option.noConfusion h
        | none =>
          have hopen := breakAtFirst_eq_none hb2
          obtain ⟨e1, e2, m1, e3⟩ := breakAtFirst_eq_some hb1
          have hs : s.data = p12.reverse ++ p11.reverse := by
            have hrev := congrArg List.reverse e1
            simpa [List.reverse_append] using hrev
          rw [habs] at hs
          rcases List.append_eq_append_iff.mp hs with ⟨a2, ha2, hy⟩ | ⟨c2, hc2, hy⟩
          · cases a2 with
            | nil =>
              simp only [List.nil_append] at hy
              have hj : (']' : Char) ∈ p11.reverse := by
                rw [← hy]
                simp
              exact e2 ']' (List.mem_reverse.mp hj) rfl
            | cons hd tl =>
              have hhd : hd = '[' := by
                have h6 := hy
                simp only [List.cons_append] at h6
                injection h6 with h5 h6
                exact h5.symm
              have hj : ('[' : Char) ∈ p12.reverse := by
                rw [ha2, hhd]
                simp
              exact hopen '[' hj rfl
          · have hj : (']' : Char) ∈ p11.reverse := by
              rw [hy]
              simp
            exact e2 ']' (List.mem_reverse.mp hj) rfl
    · unfold normalize
      rw [h]
      rfl

/-- Witness for C4 at a concrete input with surrounding prose: the match
of `"see [1] here"` is `"[1]"`, decomposed per the greedy
characterization. -/
theorem c4_greedy_match_spec_witness :
    ∃ a b, ("see [1] here").data = a ++ ("[1]").data ++ b ∧
      (∀ x ∈ a, x ≠ '[') ∧ (∀ x ∈ b, x ≠ ']') ∧
      (∃ u, ("[1]").data = '[' :: u) ∧ (∃ w, ("[1]").data = w ++ [']']) :=
  (c4_greedy_match_spec "see [1] here" sampleCtx).1 "[1]" rfl

/-- C4 counterexample: on `"[1] trailing [2]"` the code selects the
whole greedy match `"[1] trailing [2]"`, not the first balanced array
`"[1]"`; the greedy match fails to parse, so the normalizer falls back,
whereas parsing the first balanced array alone would have produced the
record mapped from `1`. -/
theorem c4_not_first_balanced_cex :
    extractArraySubstring "[1] trailing [2]" = some "[1] trailing [2]" ∧
    firstBalancedArray "[1] trailing [2]" = some "[1]" ∧
    parseJson ("[1] trailing [2]").data = Except.error () ∧
    normalize "[1] trailing [2]" sampleCtx = [fallbackRecord sampleCtx] ∧
    normalize "[1]" sampleCtx = [mapItemCore sampleCtx 0 (JsVal.num 1)] :=
  ⟨rfl, rfl, rfl, rfl, rfl⟩

/-- C5 (amended): when the parsed value is an array none of whose
elements is `null`, every element is mapped independently to its record
(wrong types and missing keys degrade only through per-field
defaulting), and the batch has one record per element; but an array
containing a `null` (or `undefined`) element makes the `.map` callback
throw, and the whole batch is then replaced by the single fallback
record — still inside a 200 response. -/
theorem c5_elementwise_mapping :
    ∀ (raw : String) (ctx : Ctx) (t : String) (xs : List JsVal),
      extractArraySubstring raw = some t →
      parseJson t.data = Except.ok (JsVal.arr xs) →
      ((∀ x ∈ xs, isNullish x = false) →
        normalize raw ctx =
          (xs.enumFrom 0).map (fun p => mapItemCore ctx p.1 p.2) ∧
        (normalize raw ctx).length = xs.length) ∧
      ((∃ x ∈ xs, isNullish x = true) →
        normalize raw ctx = [fallbackRecord ctx]) := by
  intro raw ctx t xs hx hp
  have hnorm : normalize raw ctx = normalizeParsed ctx (Except.ok (JsVal.arr xs)) := by
    unfold normalize
    rw [hx, Option.getD_some, hp]
  constructor
  · intro hall
    have hmap := mapItemsAux_ok_of_not_nullish ctx xs 0 hall
    constructor
    · rw [hnorm]
      simp [normalizeParsed, hmap]
    · rw [hnorm]
      simp [normalizeParsed, hmap]
  · intro hex
    rw [hnorm]
    simp [normalizeParsed, mapItemsAux_error_of_nullish xs 0 hex]

/-- Witness for C5: a two-element array maps to two independent
records. -/
theorem c5_elementwise_mapping_witness :
    normalize "[1,2]" sampleCtx =
      [mapItemCore sampleCtx 0 (JsVal.num 1),
       mapItemCore sampleCtx 1 (JsVal.num 2)] :=
  ((c5_elementwise_mapping "[1,2]" sampleCtx "[1,2]"
      [JsVal.num 1, JsVal.num 2] rfl rfl).1 (by decide)).1

/-- C5 counterexample: `"[1,null]"` parses as a two-element array, yet
the whole batch is replaced by the single fallback record — the `null`
element does not degrade individually. -/
theorem c5_null_element_fallback_cex :
    parseJson ("[1,null]").data = Except.ok (JsVal.arr [JsVal.num 1, JsVal.null]) ∧
    normalize "[1,null]" sampleCtx = [fallbackRecord sampleCtx] :=
  ⟨rfl, rfl⟩

end InvoiceParser
